import Mathlib

set_option linter.unusedVariables false

namespace Difftree

/-- Paths and other Go byte strings are modelled as lists of characters
(the repository only handles ASCII path bytes in the behaviours at issue). -/
abbrev GoStr := List Char

/-- The path separator on the target platform (`filepath.Separator` on Linux). -/
def pathSeparator : Char := '/'

/-- Split a path on `/` characters, keeping empty components,
modelling the element decomposition used by Go `path.Clean`. -/
def splitSlash : GoStr → List GoStr
  | [] => [[]]
  | c :: rest =>
    let r := splitSlash rest
    if c = pathSeparator then
      [] :: r
    else
      match r with
      | [] => [[c]]
      | h :: t => (c :: h) :: t

/-- The element-processing core of Go `path.Clean`: drop empty and `.`
components, resolve `..` against the output stack (a `..` at the root of a
rooted path vanishes; leading `..` of a relative path is kept). -/
def cleanElems (rooted : Bool) : List GoStr → List GoStr → List GoStr
  | acc, [] => acc.reverse
  | acc, e :: rest =>
    if e = [] ∨ e = ['.'] then cleanElems rooted acc rest
    else if e = ['.', '.'] then
      match acc with
      | [] => if rooted then cleanElems rooted [] rest
              else cleanElems rooted [['.', '.']] rest
      | a :: acc' =>
        if a = ['.', '.'] then cleanElems rooted (e :: a :: acc') rest
        else cleanElems rooted acc' rest
    else cleanElems rooted (e :: acc) rest

/-- Join components with `/` separators. -/
def joinSlash : List GoStr → GoStr
  | [] => []
  | [e] => e
  | e :: rest => e ++ pathSeparator :: joinSlash rest

/-- Model of Go `path.Clean` (and of `filepath.Clean` on a slash-separated
platform): shortest lexically-equivalent path. -/
def goClean (p : GoStr) : GoStr :=
  if p = [] then ['.']
  else
    let rooted := p.head? = some pathSeparator
    let elems := cleanElems rooted [] (splitSlash p)
    if elems = [] then
      if rooted then [pathSeparator] else ['.']
    else
      (if rooted then [pathSeparator] else []) ++ joinSlash elems

/-- Model of Go `filepath.Join` for two elements: empty elements are
dropped, the rest are joined with a separator and the result is cleaned;
all-empty input yields the empty string. -/
def filepathJoin (a b : GoStr) : GoStr :=
  if a = [] ∧ b = [] then []
  else if a = [] then goClean b
  else if b = [] then goClean a
  else goClean (a ++ pathSeparator :: b)

/-- Model of Go `filepath.Base`: the last element of the path after
removing trailing separators; empty input gives `.`; an all-separator
path gives `/`. -/
def filepathBase (p : GoStr) : GoStr :=
  if p = [] then ['.']
  else
    let r := p.reverse.dropWhile (fun c => c = pathSeparator)
    if r = [] then [pathSeparator]
    else (r.takeWhile (fun c => c ≠ pathSeparator)).reverse

example : goClean "a/b/".toList = "a/b".toList := by decide
example : goClean "/".toList = "/".toList := by decide
example : goClean "t2//b/c".toList = "t2/b/c".toList := by decide
example : filepathJoin "t2".toList "/b/c".toList = "t2/b/c".toList := by decide
example : filepathJoin "t2".toList "c".toList = "t2/c".toList := by decide
example : filepathBase "a/b/c".toList = "c".toList := by decide

/-! ## Data model (`tree_entry.go`) -/

/-- The `resultType` enumeration of `tree_entry.go`. -/
inductive resultType where
  | kNil
  | kPerfectMatch
  | kMissing
  | kGoodEnough
  | kMismatch
  | kDifferentTypes
  | kDifferentPermissions
  | kDirSameEntries
  | kDirDifferentEntries
  | kError
  | kIgnored
deriving DecidableEq, Repr

/-- The inode-type portion of an `os.FileMode` (`mode & os.ModeType`),
restricted to the kinds `translateModeType` distinguishes. -/
inductive FileType where
  | dir
  | symlink
  | namedPipe
  | socket
  | device
  | regular
deriving DecidableEq, Repr

/-- The part of an `os.FileInfo` the comparison code reads: the inode
type bits, the permission bits (`Mode().Perm()`) and the size. -/
structure FileInfo where
  ftype : FileType
  perm : Nat
  size : Int
deriving DecidableEq, Repr

/-- Model of `translateModeType` of `tree_entry.go`. -/
def translateModeType : FileType → GoStr
  | .dir => "directory".toList
  | .symlink => "symlink".toList
  | .namedPipe => "named pipe".toList
  | .socket => "socket".toList
  | .device => "device".toList
  | .regular => "regular file".toList

/-- Abstraction of Go `os.FileMode.String()` (standard-library rendering;
no claim depends on its exact text, only on which infos it is applied to). -/
def fileModeString (i : FileInfo) : GoStr :=
  translateModeType i.ftype ++ (' ' :: (Nat.toDigits 8 i.perm))

/-- The `treeEntry` record of `tree_entry.go`.  `info1`/`info2` are
`Option` because the Go fields are nilable interface values; `err` keeps
only the presence and a short tag of the captured error. -/
structure treeEntry where
  order : Nat
  path1 : GoStr
  path2 : GoStr
  info1 : Option FileInfo
  info2 : Option FileInfo
  hasInfo2 : Bool
  err : Option GoStr
  result : resultType
  description : GoStr
deriving DecidableEq, Repr

/-- A fully reset `treeEntry` (`treeEntry.reset`). -/
def blankEntry : treeEntry :=
  { order := 0, path1 := [], path2 := [], info1 := none, info2 := none,
    hasInfo2 := false, err := none, result := .kNil, description := [] }

/-- Model of `DifftreeOptions`; the `IgnoreFiles` map is modelled by its key set
(the code only tests key presence). -/
structure DifftreeOptions where
  CheckHashes : Bool
  IgnoreFiles : List GoStr
deriving Repr

/-- Result of an `os.Lstat` call: success with metadata, a
does-not-exist error (`os.IsNotExist`), or any other error. -/
inductive LstatResult where
  | ok (info : FileInfo)
  | notExist
  | otherError
deriving DecidableEq, Repr

/-- The filesystem effects the comparison stage performs, as oracles:
`lstat` for `os.Lstat`, `readDir` for `ioutil.ReadDir` (the listed
basenames, or `none` on error), and `contents` for opening and fully
reading a file (`none` models an open or read error in `getFileHash`). -/
structure FS where
  lstat : GoStr → LstatResult
  readDir : GoStr → Option (List GoStr)
  contents : GoStr → Option (List Nat)

/-- Model of `computePath2` of `tree_entry.go`: `filepath.Join(path2Root,
path1[path1RootLen:])` when `path1` is longer than the root length,
else `path2Root` itself. -/
def computePath2 (e : treeEntry) (path1RootLen : Nat) (path2Root : GoStr) : treeEntry :=
  if e.path1.length > path1RootLen then
    { e with path2 := filepathJoin path2Root (e.path1.drop path1RootLen) }
  else
    { e with path2 := path2Root }

/-! ## Hashing (`getFileHash`, `cmpByteSlices`) -/

/-- A hex digit character, lower case, as produced by Go
`encoding/hex`. -/
def hexDigit (n : Nat) : Char :=
  if n < 10 then Char.ofNat (48 + n) else Char.ofNat (87 + n)

/-- Model of `hex.EncodeToString` over a byte slice. -/
def hexEncodeToString (bs : List Nat) : GoStr :=
  bs.foldr (fun b acc => hexDigit (b / 16) :: hexDigit (b % 16) :: acc) []

/-- Model of `cmpByteSlices` of `tree_entry.go`: length check, then bytewise
comparison. -/
def cmpByteSlices : List Nat → List Nat → Bool
  | [], [] => true
  | [], _ :: _ => false
  | _ :: _, [] => false
  | a :: s1, b :: s2 => if a ≠ b then false else cmpByteSlices s1 s2

/-- Model of `getFileHash` of `tree_entry.go`, with the SHA-1 digest abstracted
as a parameter `hashFn` over the file's bytes: an open or read failure
(`fs.contents` returns `none`) yields the error branch. -/
def getFileHash (hashFn : List Nat → List Nat) (fs : FS) (filename : GoStr) :
    Option (List Nat) :=
  match fs.contents filename with
  | none => none
  | some bs => some (hashFn bs)

example : cmpByteSlices [] [] = true := by decide
example : cmpByteSlices [] [1, 2] = false := by decide
example : hexEncodeToString [171, 1] = "ab01".toList := by decide

/-! ## Worker classification (`comparePaths` and helpers) -/

/-- Decimal rendering of a Go integer (`%d`). -/
def goIntString (i : Int) : GoStr :=
  if i < 0 then '-' :: Nat.toDigits 10 i.natAbs else Nat.toDigits 10 i.natAbs

/-- The `fmt.Sprintf("file1 is size %d, file2 is size %d", ...)` text of
`compareRegularFiles`. -/
def sizeMismatchDescription (s1 s2 : Int) : GoStr :=
  "file1 is size ".toList ++ goIntString s1 ++
    ", file2 is size ".toList ++ goIntString s2

/-- The `fmt.Sprintf("file1 hash SHA1 %s, file2 has SHA1 %s", ...)` text of
`compareRegularFiles`. -/
def hashMismatchDescription (h1 h2 : List Nat) : GoStr :=
  "file1 hash SHA1 ".toList ++ hexEncodeToString h1 ++
    ", file2 has SHA1 ".toList ++ hexEncodeToString h2

/-- Model of `mapset.Set.Add`: insert a member if not already present (the model
keeps the set as a duplicate-free list in insertion order). -/
def setAdd (s : List GoStr) (x : GoStr) : List GoStr :=
  if s.contains x then s else s ++ [x]

/-- Model of `mapset` set equality: same members. -/
def setEqual (s1 s2 : List GoStr) : Bool :=
  s1.all (fun x => s2.contains x) && s2.all (fun x => s1.contains x)

/-- Model of `mapset` set difference: members of `s1` not in `s2`. -/
def setDifference (s1 s2 : List GoStr) : List GoStr :=
  s1.filter (fun x => !s2.contains x)

/-- Model of `readDirectoryIntoSet` of `tree_entry.go`: list the directory, skip
names in the ignore map, add the rest to a fresh set; a `ReadDir`
failure returns the error. -/
def readDirectoryIntoSet (fs : FS) (directory : GoStr) (options : DifftreeOptions) :
    Option (List GoStr) :=
  match fs.readDir directory with
  | none => none
  | some dirEntries =>
    some (dirEntries.foldl
      (fun set n => if options.IgnoreFiles.contains n then set else setAdd set n) [])

/-- Right-align a number in a field of the given width (`%4d`). -/
def padLeftNum (n : Nat) (width : Nat) : GoStr :=
  let ds := Nat.toDigits 10 n
  List.replicate (width - ds.length) ' ' ++ ds

/-- One line of `createEnumeratedList`:
`fmt.Sprintf("    %4d. %s\n", i+1, item)`. -/
def enumLine (i : Nat) (item : GoStr) : GoStr :=
  "    ".toList ++ padLeftNum (i + 1) 4 ++ ". ".toList ++ item ++ ['\n']

/-- The indexed loop of `createEnumeratedList`, carrying the 0-based
index `i`. -/
def createEnumeratedListAux (i : Nat) : List GoStr → GoStr
  | [] => []
  | item :: rest => enumLine i item ++ createEnumeratedListAux (i + 1) rest

/-- Model of `createEnumeratedList` of `tree_entry.go`. -/
def createEnumeratedList (items : List GoStr) : GoStr :=
  createEnumeratedListAux 0 items

/-- Model of `compareDirectories` of `tree_entry.go`. -/
def compareDirectories (fs : FS) (options : DifftreeOptions) (e : treeEntry) : treeEntry :=
  match readDirectoryIntoSet fs e.path1 options with
  | none => { e with result := .kError, err := some ("ReadDir(".toList ++ e.path1 ++ [')']) }
  | some dir1Set =>
    match readDirectoryIntoSet fs e.path2 options with
    | none => { e with result := .kError, err := some ("ReadDir(".toList ++ e.path2 ++ [')']) }
    | some dir2Set =>
      if setEqual dir1Set dir2Set then
        { e with result := .kDirSameEntries }
      else
        let dir1extra := setDifference dir1Set dir2Set
        let dir2extra := setDifference dir2Set dir1Set
        let d1 : GoStr :=
          if dir1extra.length > 0 then
            "dir1 has these extra entries that are missing from dir2:\n".toList ++
              createEnumeratedList dir1extra ++ ['\n']
          else []
        let d2 : GoStr :=
          if dir2extra.length > 0 then
            "dir2 has these extra entries that are missing from dir1:\n".toList ++
              createEnumeratedList dir2extra ++ ['\n']
          else []
        { e with result := .kDirDifferentEntries, description := d1 ++ d2 }

/-- Model of `compareRegularFiles` of `tree_entry.go`, faithful to the source's
control flow: a `getFileHash` error sets `kError` but does NOT return,
so execution falls through to the digest comparison with a nil (empty)
hash slice.  `i1`, `i2` are the entry's `info1`/`info2` (non-nil at this
call site). -/
def compareRegularFiles (hashFn : List Nat → List Nat) (fs : FS)
    (options : DifftreeOptions) (i1 i2 : FileInfo) (e : treeEntry) : treeEntry :=
  if i1.size ≠ i2.size then
    { e with description := sizeMismatchDescription i1.size i2.size,
             result := .kMismatch }
  else if options.CheckHashes then
    let r1 := getFileHash hashFn fs e.path1
    let e1 := match r1 with
      | none => { e with result := resultType.kError,
                         err := some ("hashing ".toList ++ e.path1) }
      | some _ => e
    let hash1 := r1.getD []
    let r2 := getFileHash hashFn fs e.path2
    let e2 := match r2 with
      | none => { e1 with result := resultType.kError,
                          err := some ("hashing ".toList ++ e1.path2) }
      | some _ => e1
    let hash2 := r2.getD []
    if cmpByteSlices hash1 hash2 then
      { e2 with result := .kPerfectMatch }
    else
      { e2 with result := .kMismatch,
                description := hashMismatchDescription hash1 hash2 }
  else
    { e with result := .kPerfectMatch }

/-- Outcome of running `comparePaths`: a normal return, the explicit
panic on an already-ignored entry, or the nil-`FileInfo` dereference
that a nil `info1`/`info2` would cause. -/
inductive CompareOutcome where
  | ok (e : treeEntry)
  | panicIgnored (path1 : GoStr)
  | panicNilInfo
deriving DecidableEq, Repr

/-- Model of `comparePaths` of `tree_entry.go`: panic if the entry is already
`kIgnored`; resolve `info2` by `os.Lstat` when absent (`missing` /
`error` early returns); then type check, permission check, and the
directory or regular-file comparison. -/
def comparePaths (hashFn : List Nat → List Nat) (fs : FS)
    (options : DifftreeOptions) (e : treeEntry) : CompareOutcome :=
  if e.result = resultType.kIgnored then
    .panicIgnored e.path1
  else
    let resolved : treeEntry ⊕ treeEntry :=
      if e.hasInfo2 then Sum.inr e
      else
        match fs.lstat e.path2 with
        | .ok info2 => Sum.inr { e with info2 := some info2, hasInfo2 := true }
        | .notExist => Sum.inl { e with result := .kMissing }
        | .otherError => Sum.inl { e with result := .kError,
                                          err := some ("Lstat ".toList ++ e.path2) }
    match resolved with
    | Sum.inl done => .ok done
    | Sum.inr e2 =>
      match e2.info1, e2.info2 with
      | some i1, some i2 =>
        if i1.ftype ≠ i2.ftype then
          let d := "file1 is a ".toList ++ translateModeType i1.ftype ++
            ", but file2 is a ".toList ++ translateModeType i2.ftype
          .ok { e2 with result := .kDifferentTypes, description := d }
        else if i1.perm ≠ i2.perm then
          let d := "file1 has perms ".toList ++ fileModeString i1 ++
            ", but file2 has ".toList ++ fileModeString i2
          .ok { e2 with result := .kDifferentPermissions, description := d }
        else if i1.ftype = FileType.dir then
          .ok (compareDirectories fs options e2)
        else
          .ok (compareRegularFiles hashFn fs options i1 i2 e2)
      | _, _ => .panicNilInfo

/-- The body of the worker loop in `compareEntries`: an entry already
classified `kIgnored` is forwarded unchanged without calling
`comparePaths`; otherwise `path2` is computed when `info2` is not yet
present, and the entry is classified. -/
def compareEntryStep (path1RootLen : Nat) (path2Root : GoStr)
    (hashFn : List Nat → List Nat) (fs : FS) (options : DifftreeOptions)
    (e : treeEntry) : CompareOutcome :=
  if e.result = resultType.kIgnored then
    .ok e
  else
    let e2 := if !e.hasInfo2 then computePath2 e path1RootLen path2Root else e
    comparePaths hashFn fs options e2

/-! ## `Compare` prefix: root-length computation (`difftree.go` lines 56-65) -/

/-- The adjustment loop of `Compare`:
`for i := len(path1)-1; i >= 0; i-- { if path1[1] == Separator { rootLen-- } else { break } }`.
`fuel` is the number of loop iterations still to run (`i + 1` for the
current `i`); each iteration reads byte index `1` of `path1` (as the
source does — not index `i`), and an out-of-range read is the Go
index-out-of-range panic, modelled as `none`.  The counter starts at
`len(path1) + 1` and is decremented at most `len(path1)` times, so the
`Nat` subtraction never underflows. -/
def rootLenLoop (path1 : GoStr) : Nat → Nat → Option Nat
  | 0, acc => some acc
  | fuel + 1, acc =>
    match path1.get? 1 with
    | none => none
    | some c => if c = pathSeparator then rootLenLoop path1 fuel (acc - 1) else some acc

/-- The `path1RootLen` computation of `Compare`: `len(path1) + 1`,
adjusted by `rootLenLoop`; `none` is the index-out-of-range panic. -/
def computePath1RootLen (path1 : GoStr) : Option Nat :=
  rootLenLoop path1 path1.length (path1.length + 1)

example : computePath1RootLen "/tmp/x".toList = some 7 := by decide
example : computePath1RootLen "/".toList = none := by decide
example : computePath1RootLen "a".toList = none := by decide
example : computePath1RootLen "a/b".toList = some 1 := by decide

/-! ## Tree walker (`readTreeEntries`) -/

/-- A filesystem subtree of tree 1, as `filepath.Walk` sees it: each
node has a basename and metadata; directory nodes carry their children
(in the lexically sorted order `filepath.Walk` visits them). -/
inductive FSNode where
  | file (name : GoStr) (meta : FileInfo)
  | dir (name : GoStr) (meta : FileInfo) (children : List FSNode)
deriving Repr

/-- Basename of a node. -/
def FSNode.name : FSNode → GoStr
  | .file n _ => n
  | .dir n _ _ => n

/-- Metadata of a node. -/
def FSNode.meta : FSNode → FileInfo
  | .file _ m => m
  | .dir _ m _ => m

/-- What the walk callback returns to `filepath.Walk`: `nil` (keep
going) or `filepath.SkipDir`. -/
inductive WalkAction where
  | keepGoing
  | skipDir
deriving DecidableEq, Repr

/-- The error-free body of the walk callback in `readTreeEntries`
(lines 117-157 for `err == nil`): record `path1`, `order`, `info1`;
classify ignored basenames (`kIgnored`, pruning directories); for
directories, eagerly compute `path2` and `Lstat` it, pruning when the
counterpart exists but is not a directory, and keeping going (still
descending) when the `Lstat` fails. -/
def walkFuncOk (path1RootLen : Nat) (path2Root : GoStr) (fs : FS)
    (options : DifftreeOptions) (order : Nat) (path : GoStr) (info : FileInfo) :
    treeEntry × WalkAction :=
  let entry := { blankEntry with path1 := path, order := order, info1 := some info }
  let basename := filepathBase path
  if options.IgnoreFiles.contains basename then
    let entry2 := { entry with result := resultType.kIgnored }
    if info.ftype = FileType.dir then (entry2, .skipDir)
    else (entry2, .keepGoing)
  else if info.ftype = FileType.dir then
    let entry2 := computePath2 entry path1RootLen path2Root
    match fs.lstat entry2.path2 with
    | .ok info2 =>
      let entry3 := { entry2 with info2 := some info2, hasInfo2 := true }
      if info2.ftype ≠ FileType.dir then (entry3, .skipDir)
      else (entry3, .keepGoing)
    | _ => (entry2, .keepGoing)
  else (entry, .keepGoing)

/-- The full walk callback of `readTreeEntries`, including the
`err != nil` branch (lines 122-128, classify `kError` and keep going)
and the nil-`FileInfo` dereference (`none`) the later branches would
hit if `filepath.Walk` passed a nil info without an error. -/
def walkFunc (path1RootLen : Nat) (path2Root : GoStr) (fs : FS)
    (options : DifftreeOptions) (order : Nat) (path : GoStr)
    (info : Option FileInfo) (err : Option GoStr) :
    Option (treeEntry × WalkAction) :=
  match err with
  | some msg =>
    let entry := { blankEntry with path1 := path, order := order, info1 := info }
    let d := "While walking onto ".toList ++ path ++ ": ".toList ++ msg
    some ({ entry with result := resultType.kError, description := d }, .keepGoing)
  | none =>
    match info with
    | none => none
    | some i => some (walkFuncOk path1RootLen path2Root fs options order path i)

mutual

/-- Model of `filepath.Walk` driving the `readTreeEntries` callback over
a subtree rooted at `path`: visit the node, and descend into a
directory's children exactly when the callback returned `nil` (not
`SkipDir`).  Returns the emitted entries in visit order and the
updated `order` counter. -/
def walkTree (path1RootLen : Nat) (path2Root : GoStr) (fs : FS)
    (options : DifftreeOptions) (order : Nat) (path : GoStr) :
    FSNode → List treeEntry × Nat
  | .file _ meta =>
    let r := walkFuncOk path1RootLen path2Root fs options order path meta
    ([r.1], order + 1)
  | .dir _ meta children =>
    let r := walkFuncOk path1RootLen path2Root fs options order path meta
    match r.2 with
    | .keepGoing =>
      let rest := walkForest path1RootLen path2Root fs options (order + 1) path children
      (r.1 :: rest.1, rest.2)
    | .skipDir => ([r.1], order + 1)

/-- Walk each child of a directory in order, at path
`filepath.Join(parent, childName)`. -/
def walkForest (path1RootLen : Nat) (path2Root : GoStr) (fs : FS)
    (options : DifftreeOptions) (order : Nat) (parent : GoStr) :
    List FSNode → List treeEntry × Nat
  | [] => ([], order)
  | c :: rest =>
    let r1 := walkTree path1RootLen path2Root fs options order (filepathJoin parent c.name) c
    let r2 := walkForest path1RootLen path2Root fs options r1.2 parent rest
    (r1.1 ++ r2.1, r2.2)

end

/-- One sequential pass of the pipeline of `Compare` (the concurrency
collapsed to function composition, which is faithful for
per-entry classification: each entry is owned by one stage at a time):
clean both roots, compute `path1RootLen` (`none` = the
index-out-of-range panic there, before any walking), then walk tree 1
and classify every emitted entry with the worker body. -/
def CompareModel (path1 path2 : GoStr) (options : DifftreeOptions)
    (hashFn : List Nat → List Nat) (fs : FS) (tree1 : FSNode) :
    Option (List CompareOutcome) :=
  let path1c := goClean path1
  let path2c := goClean path2
  match computePath1RootLen path1c with
  | none => none
  | some rootLen =>
    let walked := (walkTree rootLen path2c fs options 0 path1c tree1).1
    some (walked.map (compareEntryStep rootLen path2c hashFn fs options))

/-! ## Reporter (`reportResults`, `ComparisonEngine`) -/

/-- The counter state of `ComparisonEngine`. -/
structure ComparisonEngine where
  countPerfectMatch : Nat
  countError : Nat
  countDifferentTypes : Nat
  countDifferentPerms : Nat
  countMismatch : Nat
  countMissing : Nat
  countDirSame : Nat
  countDirDifferent : Nat
  countIgnoredByUser : Nat
  path1RootLen : Nat
deriving DecidableEq, Repr

/-- Processing of one entry by `reportResults`: the `kPerfectMatch`
fast path, then the `switch` over the remaining classifications, whose
`default` arm panics (`none`).  The printed diagnostic lines are not
modelled (no claim depends on their text), only the counter updates
and the panic. -/
def reportOne (s : ComparisonEngine) (e : treeEntry) : Option ComparisonEngine :=
  if e.result = resultType.kPerfectMatch then
    some { s with countPerfectMatch := s.countPerfectMatch + 1 }
  else
    match e.result with
    | .kError => some { s with countError := s.countError + 1 }
    | .kMissing => some { s with countMissing := s.countMissing + 1 }
    | .kDifferentPermissions => some { s with countDifferentPerms := s.countDifferentPerms + 1 }
    | .kDifferentTypes => some { s with countDifferentTypes := s.countDifferentTypes + 1 }
    | .kMismatch => some { s with countMismatch := s.countMismatch + 1 }
    | .kIgnored => some { s with countIgnoredByUser := s.countIgnoredByUser + 1 }
    | .kDirSameEntries => some { s with countDirSame := s.countDirSame + 1 }
    | .kDirDifferentEntries => some { s with countDirDifferent := s.countDirDifferent + 1 }
    | _ => none

/-- Model of `reportResults`: drain the merged response stream (modelled as the
list of entries it will deliver), updating the counters; a panic in the
`switch` aborts (`none`); on completion the Go function executes
`return nil`, so the delivered `error` value (the second component) is
always `none`. -/
def reportResults (s : ComparisonEngine) :
    List treeEntry → Option (ComparisonEngine × Option GoStr)
  | [] => some (s, none)
  | e :: rest =>
    match reportOne s e with
    | none => none
    | some s2 => reportResults s2 rest

/-- The closed enumeration of terminal classification outcomes that the
spec allows to reach the Reporter. -/
def terminalResults : List resultType :=
  [.kPerfectMatch, .kMissing, .kMismatch, .kDifferentTypes,
   .kDifferentPermissions, .kDirSameEntries, .kDirDifferentEntries,
   .kError, .kIgnored]

/-- Projection of a normal `comparePaths` outcome. -/
def outcomeEntry : CompareOutcome → Option treeEntry
  | .ok e => some e
  | _ => none

/-! ## Theorems -/

/-- C9: For every call to `Compare` whose cleaned tree-1 root path has
length 1 (for example `/` or `a`), the root-path-length computation
indexes character position 1 of the root string and raises an
index-out-of-range fault before any walking begins; the comparison
never runs (the pipeline model yields the panic, with no walk
output). -/
theorem compare_panics_on_length_one_root (path1 path2 : GoStr)
    (options : DifftreeOptions) (hashFn : List Nat → List Nat) (fs : FS)
    (tree1 : FSNode) (h : (goClean path1).length = 1) :
    CompareModel path1 path2 options hashFn fs tree1 = none := by
  obtain ⟨a, ha⟩ := List.length_eq_one.mp h
  unfold CompareModel
  rw [ha]
  rfl

/-- Witness for C9 at the concrete root `/` (which `path.Clean` leaves
as the one-character string `/`). -/
theorem compare_panics_on_length_one_root_witness :
    (goClean "/".toList).length = 1 ∧
      CompareModel "/".toList "t2".toList ⟨false, []⟩ (fun _ => [])
        ⟨fun _ => .notExist, fun _ => none, fun _ => none⟩
        (FSNode.file "x".toList ⟨.regular, 420, 0⟩) = none :=
  ⟨by decide,
   compare_panics_on_length_one_root "/".toList "t2".toList ⟨false, []⟩
     (fun _ => []) ⟨fun _ => .notExist, fun _ => none, fun _ => none⟩
     (FSNode.file "x".toList ⟨.regular, 420, 0⟩) (by decide)⟩

/-- C2: the claim `path2 = join(tree2Root, path1[len(tree1Root)+1:])`
fails on the code for the cleaned roots `a/b` and `t2`: the
root-length adjustment loop in `Compare` tests `path1[1]` instead of
`path1[i]`, so for a root whose second byte is the separator it
decrements once per iteration and collapses `path1RootLen` to 1.  The
walked file `a/b/c` then gets `path2 = join("t2", "/b/c") = "t2/b/c"`,
while the claim's formula gives `join("t2", "c") = "t2/c"`. -/
theorem computePath2_root_len_bug_eval :
    computePath1RootLen (goClean "a/b".toList) = some 1 ∧
    (CompareModel "a/b".toList "t2".toList ⟨false, []⟩ (fun _ => [])
        ⟨fun _ => .notExist, fun _ => none, fun _ => none⟩
        (FSNode.dir "b".toList ⟨.dir, 493, 0⟩
          [FSNode.file "c".toList ⟨.regular, 420, 7⟩])).map
      (List.map (fun o => (outcomeEntry o).map (fun e => (e.path1, e.path2)))) =
      some [some ("a/b".toList, "t2/b".toList),
            some ("a/b/c".toList, "t2/b/c".toList)] ∧
    filepathJoin "t2".toList ("a/b/c".toList.drop ("a/b".toList.length + 1)) =
      "t2/c".toList ∧
    "t2/b/c".toList ≠ "t2/c".toList := by
  exact ⟨by decide, by decide, by decide, by decide⟩

/-- C1: the claim that a failed hash read ends as `error` fails on the
code.  `compareRegularFiles` sets `kError` on a `getFileHash` failure
but does not return, so the digest comparison below overwrites the
classification: with file1 unreadable and file2 hashable the unit ends
as `kMismatch` (nil hash vs. real hash), and with both unreadable it
ends as `kPerfectMatch` (nil hash vs. nil hash) — never as `kError`.
Evaluated here through the full worker body on two equal-size regular
files with hashing enabled. -/
theorem hash_read_error_overwritten_eval :
    ((outcomeEntry (compareEntryStep 3 "t2".toList (fun bs => [bs.length])
        ⟨fun _ => .notExist, fun _ => none,
         fun p => if p = "f1".toList then none else some [1, 2, 3]⟩
        ⟨true, []⟩
        { blankEntry with path1 := "f1".toList, path2 := "f2".toList,
                          info1 := some ⟨.regular, 420, 7⟩,
                          info2 := some ⟨.regular, 420, 7⟩,
                          hasInfo2 := true })).map treeEntry.result =
      some resultType.kMismatch) ∧
    ((outcomeEntry (compareEntryStep 3 "t2".toList (fun bs => [bs.length])
        ⟨fun _ => .notExist, fun _ => none, fun _ => none⟩
        ⟨true, []⟩
        { blankEntry with path1 := "f1".toList, path2 := "f2".toList,
                          info1 := some ⟨.regular, 420, 7⟩,
                          info2 := some ⟨.regular, 420, 7⟩,
                          hasInfo2 := true })).map treeEntry.result =
      some resultType.kPerfectMatch) ∧
    some resultType.kMismatch ≠ some resultType.kError ∧
    some resultType.kPerfectMatch ≠ some resultType.kError := by
  exact ⟨by decide, by decide, by decide, by decide⟩

lemma reportOne_eq_none_iff (s : ComparisonEngine) (e : treeEntry) :
    reportOne s e = none ↔ e.result ∉ terminalResults := by
  cases h : e.result <;> simp [reportOne, terminalResults, h]

/-- C8: a unit reaching the Reporter with a classification outside the
closed terminal enumeration (here: `kNil` or `kGoodEnough`) hits the
`default` arm of the `switch` and panics, aborting the whole drain of
the response stream; every value inside the enumeration is processed
without aborting. -/
theorem reporter_aborts_outside_enumeration (s : ComparisonEngine) (e : treeEntry) :
    (reportOne s e = none ↔ e.result ∉ terminalResults) ∧
    (∀ (s0 : ComparisonEngine) (entries : List treeEntry),
      e ∈ entries → e.result ∉ terminalResults →
        reportResults s0 entries = none) := by
  refine ⟨reportOne_eq_none_iff s e, ?_⟩
  intro s0 entries hmem hres
  induction entries generalizing s0 with
  | nil => cases hmem
  | cons a rest ih =>
    rcases List.mem_cons.mp hmem with rfl | h
    · have : reportOne s0 e = none := (reportOne_eq_none_iff s0 e).mpr hres
      simp [reportResults, this]
    · unfold reportResults
      cases hr : reportOne s0 a with
      | none => rfl
      | some s2 => exact ih s2 h

/-- Witness for C8: an entry carrying the unused `kGoodEnough` variant
panics the Reporter, both as a single step and inside a stream. -/
theorem reporter_aborts_outside_enumeration_witness :
    (reportOne ⟨0, 0, 0, 0, 0, 0, 0, 0, 0, 5⟩
        { blankEntry with result := .kGoodEnough } = none) ∧
      reportResults ⟨0, 0, 0, 0, 0, 0, 0, 0, 0, 5⟩
        [{ blankEntry with result := .kGoodEnough }] = none :=
  ⟨(reporter_aborts_outside_enumeration ⟨0, 0, 0, 0, 0, 0, 0, 0, 0, 5⟩
      { blankEntry with result := .kGoodEnough }).1.mpr (by decide),
   (reporter_aborts_outside_enumeration ⟨0, 0, 0, 0, 0, 0, 0, 0, 0, 5⟩
      { blankEntry with result := .kGoodEnough }).2
     ⟨0, 0, 0, 0, 0, 0, 0, 0, 0, 5⟩
     [{ blankEntry with result := .kGoodEnough }] (by decide) (by decide)⟩

lemma computePath2_result (e : treeEntry) (n : Nat) (p : GoStr) :
    (computePath2 e n p).result = e.result := by
  unfold computePath2; split <;> rfl

lemma computePath2_path1 (e : treeEntry) (n : Nat) (p : GoStr) :
    (computePath2 e n p).path1 = e.path1 := by
  unfold computePath2; split <;> rfl

lemma comparePaths_ne_panicIgnored (hashFn : List Nat → List Nat) (fs : FS)
    (options : DifftreeOptions) (e : treeEntry)
    (hres : ¬ e.result = resultType.kIgnored) (p : GoStr) :
    comparePaths hashFn fs options e ≠ .panicIgnored p := by
  unfold comparePaths
  rw [if_neg hres]
  dsimp only
  split
  · simp
  · split
    · split_ifs <;> simp
    · simp

/-- C10: the panic branch at the entry of `comparePaths` (taken only
when the unit is already classified `kIgnored`) is unreachable from the
worker loop: `compareEntries` forwards every `kIgnored` unit directly
to its output channel, and on every other unit the `comparePaths` guard
is false, so no input entry can make the worker body produce the
ignored-entry panic. -/
theorem worker_never_triggers_ignored_panic (path1RootLen : Nat)
    (path2Root : GoStr) (hashFn : List Nat → List Nat) (fs : FS)
    (options : DifftreeOptions) (e : treeEntry) (p : GoStr) :
    compareEntryStep path1RootLen path2Root hashFn fs options e ≠
      .panicIgnored p := by
  unfold compareEntryStep
  split
  · simp
  · next hres =>
    apply comparePaths_ne_panicIgnored
    split
    · simpa [computePath2_result] using hres
    · exact hres

/-- Witness for C10 at a concrete non-ignored entry. -/
theorem worker_never_triggers_ignored_panic_witness :
    compareEntryStep 3 "t2".toList (fun _ => [])
      ⟨fun _ => .notExist, fun _ => none, fun _ => none⟩ ⟨false, []⟩
      { blankEntry with path1 := "a/b/c".toList } ≠
      .panicIgnored "a/b/c".toList :=
  worker_never_triggers_ignored_panic 3 "t2".toList (fun _ => [])
    ⟨fun _ => .notExist, fun _ => none, fun _ => none⟩ ⟨false, []⟩
    { blankEntry with path1 := "a/b/c".toList } "a/b/c".toList

/-- C7: one full pipeline pass delivers a `nil` error whenever every
unit reaches the Reporter with a terminal classification: `Compare`
returns `reportResults`'s value, and `reportResults` ends in
`return nil`, so per-path mismatches, missing paths and per-path I/O
errors never surface as a non-nil error — they only increment the
corresponding counters (shown here for `kMismatch`, `kMissing` and
`kError`).  A non-nil (here: aborted) outcome can only come from the
invariant-violation panic, never from a per-path condition. -/
theorem compare_error_nil_per_path_counted (s : ComparisonEngine)
    (entries : List treeEntry)
    (h : ∀ e ∈ entries, e.result ∈ terminalResults) :
    ∃ s' : ComparisonEngine,
      reportResults s entries = some (s', none) ∧
      s'.countMismatch = s.countMismatch +
        (entries.filter fun e => decide (e.result = resultType.kMismatch)).length ∧
      s'.countMissing = s.countMissing +
        (entries.filter fun e => decide (e.result = resultType.kMissing)).length ∧
      s'.countError = s.countError +
        (entries.filter fun e => decide (e.result = resultType.kError)).length := by
  induction entries generalizing s with
  | nil => exact ⟨s, rfl, by simp, by simp, by simp⟩
  | cons e rest ih =>
    have he := h e (List.mem_cons_self e rest)
    have hrest : ∀ x ∈ rest, x.result ∈ terminalResults :=
      fun x hx => h x (List.mem_cons_of_mem e hx)
    cases hcase : e.result
    case kNil => exact absurd he (by simp [terminalResults, hcase])
    case kGoodEnough => exact absurd he (by simp [terminalResults, hcase])
    all_goals
      obtain ⟨s', h1, h2, h3, h4⟩ := ih _ hrest
      refine ⟨s', by simpa [reportResults, reportOne, hcase] using h1, ?_, ?_, ?_⟩ <;>
        · simp only [List.filter_cons, hcase, h2, h3, h4]
          simp
          try omega

/-- Witness for C7: a stream holding one mismatch, one missing path and
one per-path error still completes with a `nil` error and the three
counters incremented. -/
theorem compare_error_nil_per_path_counted_witness :
    ∃ s' : ComparisonEngine,
      reportResults ⟨0, 0, 0, 0, 0, 0, 0, 0, 0, 5⟩
        [{ blankEntry with result := .kMismatch },
         { blankEntry with result := .kMissing },
         { blankEntry with result := .kError }] = some (s', none) ∧
      s'.countMismatch = 0 + 1 ∧ s'.countMissing = 0 + 1 ∧
      s'.countError = 0 + 1 := by
  obtain ⟨s', h1, h2, h3, h4⟩ :=
    compare_error_nil_per_path_counted ⟨0, 0, 0, 0, 0, 0, 0, 0, 0, 5⟩
      [{ blankEntry with result := .kMismatch },
       { blankEntry with result := .kMissing },
       { blankEntry with result := .kError }] (by decide)
  exact ⟨s', h1, by simpa using h2, by simpa using h3, by simpa using h4⟩

lemma comparePaths_resolved (hashFn : List Nat → List Nat) (fs : FS)
    (options : DifftreeOptions) (e : treeEntry) (i1 i2 : FileInfo)
    (hres : ¬ e.result = resultType.kIgnored) (hhas : e.hasInfo2 = true)
    (hi1 : e.info1 = some i1) (hi2 : e.info2 = some i2) :
    comparePaths hashFn fs options e =
      if i1.ftype ≠ i2.ftype then
        .ok { e with
              result := .kDifferentTypes,
              description := "file1 is a ".toList ++ translateModeType i1.ftype ++
                ", but file2 is a ".toList ++ translateModeType i2.ftype }
      else if i1.perm ≠ i2.perm then
        .ok { e with
              result := .kDifferentPermissions,
              description := "file1 has perms ".toList ++ fileModeString i1 ++
                ", but file2 has ".toList ++ fileModeString i2 }
      else if i1.ftype = FileType.dir then
        .ok (compareDirectories fs options e)
      else
        .ok (compareRegularFiles hashFn fs options i1 i2 e) := by
  unfold comparePaths
  rw [if_neg hres]
  simp only [hhas, if_true, hi1, hi2]

lemma compareEntryStep_hasInfo2 (path1RootLen : Nat) (path2Root : GoStr)
    (hashFn : List Nat → List Nat) (fs : FS) (options : DifftreeOptions)
    (e : treeEntry) (hres : ¬ e.result = resultType.kIgnored)
    (hhas : e.hasInfo2 = true) :
    compareEntryStep path1RootLen path2Root hashFn fs options e =
      comparePaths hashFn fs options e := by
  unfold compareEntryStep
  rw [if_neg hres]
  simp [hhas]

/-- C3: the worker's classification rules apply in strict priority
order with the first match winning: a type mismatch is reported before
permissions are looked at, a permission mismatch before any
directory/content comparison, both directories delegate to the
directory comparison, and for non-directories an inequality of sizes
classifies `kMismatch` with no hash ever computed (the outcome is
identical under every hash function and every file-content oracle). -/
theorem classification_priority_order (path1RootLen : Nat) (path2Root : GoStr)
    (hashFn : List Nat → List Nat) (fs : FS) (options : DifftreeOptions)
    (e : treeEntry) (i1 i2 : FileInfo)
    (hres : ¬ e.result = resultType.kIgnored) (hhas : e.hasInfo2 = true)
    (hi1 : e.info1 = some i1) (hi2 : e.info2 = some i2) :
    (i1.ftype ≠ i2.ftype →
      (outcomeEntry (compareEntryStep path1RootLen path2Root hashFn fs options e)).map
        treeEntry.result = some resultType.kDifferentTypes) ∧
    (i1.ftype = i2.ftype → i1.perm ≠ i2.perm →
      (outcomeEntry (compareEntryStep path1RootLen path2Root hashFn fs options e)).map
        treeEntry.result = some resultType.kDifferentPermissions) ∧
    (i1.ftype = i2.ftype → i1.perm = i2.perm → i1.ftype = FileType.dir →
      compareEntryStep path1RootLen path2Root hashFn fs options e =
        .ok (compareDirectories fs options e)) ∧
    (i1.ftype = i2.ftype → i1.perm = i2.perm → i1.ftype ≠ FileType.dir →
      i1.size ≠ i2.size →
      ∀ (hashFn2 : List Nat → List Nat) (fs2 : FS),
        compareEntryStep path1RootLen path2Root hashFn2 fs2 options e =
          .ok { e with
                description := sizeMismatchDescription i1.size i2.size,
                result := .kMismatch }) := by
  refine ⟨?_, ?_, ?_, ?_⟩
  · intro htype
    rw [compareEntryStep_hasInfo2 _ _ _ _ _ _ hres hhas,
      comparePaths_resolved _ _ _ _ _ _ hres hhas hi1 hi2, if_pos htype]
    rfl
  · intro htype hperm
    rw [compareEntryStep_hasInfo2 _ _ _ _ _ _ hres hhas,
      comparePaths_resolved _ _ _ _ _ _ hres hhas hi1 hi2,
      if_neg (by simp [htype]), if_pos hperm]
    rfl
  · intro htype hperm hdir
    rw [compareEntryStep_hasInfo2 _ _ _ _ _ _ hres hhas,
      comparePaths_resolved _ _ _ _ _ _ hres hhas hi1 hi2,
      if_neg (by simp [htype]), if_neg (by simp [hperm]), if_pos hdir]
  · intro htype hperm hdir hsize hashFn2 fs2
    rw [compareEntryStep_hasInfo2 _ _ _ _ _ _ hres hhas,
      comparePaths_resolved _ _ _ _ _ _ hres hhas hi1 hi2,
      if_neg (by simp [htype]), if_neg (by simp [hperm]), if_neg hdir]
    unfold compareRegularFiles
    rw [if_pos hsize]

/-- Witness for C3 on concrete metadata: a directory vs. regular-file
pair (type mismatch wins), a permission mismatch on equal types, a
directory pair, and a size mismatch on regular files (hash-independent). -/
theorem classification_priority_order_witness :
    ((outcomeEntry (compareEntryStep 3 "t2".toList (fun _ => [])
        ⟨fun _ => .notExist, fun _ => none, fun _ => none⟩ ⟨true, []⟩
        { blankEntry with path1 := "a/x".toList, path2 := "t2/x".toList,
                          info1 := some ⟨.dir, 448, 0⟩,
                          info2 := some ⟨.regular, 420, 9⟩,
                          hasInfo2 := true })).map treeEntry.result =
      some resultType.kDifferentTypes) ∧
    ((outcomeEntry (compareEntryStep 3 "t2".toList (fun _ => [])
        ⟨fun _ => .notExist, fun _ => none, fun _ => none⟩ ⟨true, []⟩
        { blankEntry with path1 := "a/x".toList, path2 := "t2/x".toList,
                          info1 := some ⟨.regular, 448, 5⟩,
                          info2 := some ⟨.regular, 420, 9⟩,
                          hasInfo2 := true })).map treeEntry.result =
      some resultType.kDifferentPermissions) ∧
    (∀ (hashFn2 : List Nat → List Nat) (fs2 : FS),
      compareEntryStep 3 "t2".toList hashFn2 fs2 ⟨true, []⟩
        { blankEntry with path1 := "a/x".toList, path2 := "t2/x".toList,
                          info1 := some ⟨.regular, 420, 5⟩,
                          info2 := some ⟨.regular, 420, 9⟩,
                          hasInfo2 := true } =
        .ok { blankEntry with path1 := "a/x".toList, path2 := "t2/x".toList,
                              info1 := some ⟨.regular, 420, 5⟩,
                              info2 := some ⟨.regular, 420, 9⟩,
                              hasInfo2 := true,
                              description := sizeMismatchDescription 5 9,
                              result := .kMismatch }) := by
  refine ⟨?_, ?_, ?_⟩
  · exact (classification_priority_order 3 "t2".toList (fun _ => [])
      ⟨fun _ => .notExist, fun _ => none, fun _ => none⟩ ⟨true, []⟩
      { blankEntry with path1 := "a/x".toList, path2 := "t2/x".toList,
                        info1 := some ⟨.dir, 448, 0⟩,
                        info2 := some ⟨.regular, 420, 9⟩,
                        hasInfo2 := true }
      ⟨.dir, 448, 0⟩ ⟨.regular, 420, 9⟩
      (by decide) (by decide) rfl rfl).1 (by decide)
  · exact (classification_priority_order 3 "t2".toList (fun _ => [])
      ⟨fun _ => .notExist, fun _ => none, fun _ => none⟩ ⟨true, []⟩
      { blankEntry with path1 := "a/x".toList, path2 := "t2/x".toList,
                        info1 := some ⟨.regular, 448, 5⟩,
                        info2 := some ⟨.regular, 420, 9⟩,
                        hasInfo2 := true }
      ⟨.regular, 448, 5⟩ ⟨.regular, 420, 9⟩
      (by decide) (by decide) rfl rfl).2.1 (by decide) (by decide)
  · exact (classification_priority_order 3 "t2".toList (fun _ => [])
      ⟨fun _ => .notExist, fun _ => none, fun _ => none⟩ ⟨true, []⟩
      { blankEntry with path1 := "a/x".toList, path2 := "t2/x".toList,
                        info1 := some ⟨.regular, 420, 5⟩,
                        info2 := some ⟨.regular, 420, 9⟩,
                        hasInfo2 := true }
      ⟨.regular, 420, 5⟩ ⟨.regular, 420, 9⟩
      (by decide) (by decide) rfl rfl).2.2.2 (by decide) (by decide)
      (by decide) (by decide)

lemma cmpByteSlices_eq_true_iff (s1 s2 : List Nat) :
    cmpByteSlices s1 s2 = true ↔ s1 = s2 := by
  induction s1 generalizing s2 with
  | nil => cases s2 <;> simp [cmpByteSlices]
  | cons a t ih =>
    cases s2 with
    | nil => simp [cmpByteSlices]
    | cons b t2 =>
      by_cases hab : a = b
      · simp [cmpByteSlices, hab, ih]
      · simp [cmpByteSlices, hab]

/-- C4: for two regular files of equal size, type and permissions whose
byte contents differ, the worker classifies `kPerfectMatch` when
hashing is disabled (the contents are never read), and `kMismatch` with
both hex-encoded digests in the detail when hashing is enabled, both
files are readable, and the two digests differ (the SHA-1 function is
abstracted as `hashFn`; the code compares digests, so differing
contents are detected exactly when their digests differ). -/
theorem equal_size_differing_content (path1RootLen : Nat) (path2Root : GoStr)
    (hashFn : List Nat → List Nat) (fs : FS) (options : DifftreeOptions)
    (e : treeEntry) (i1 i2 : FileInfo) (c1 c2 : List Nat)
    (hres : ¬ e.result = resultType.kIgnored) (hhas : e.hasInfo2 = true)
    (hi1 : e.info1 = some i1) (hi2 : e.info2 = some i2)
    (htype : i1.ftype = i2.ftype) (hreg : i1.ftype = FileType.regular)
    (hperm : i1.perm = i2.perm) (hsize : i1.size = i2.size)
    (hc1 : fs.contents e.path1 = some c1) (hc2 : fs.contents e.path2 = some c2)
    (hcontent : c1 ≠ c2) :
    (options.CheckHashes = false →
      compareEntryStep path1RootLen path2Root hashFn fs options e =
        .ok { e with result := .kPerfectMatch }) ∧
    (options.CheckHashes = true → hashFn c1 ≠ hashFn c2 →
      compareEntryStep path1RootLen path2Root hashFn fs options e =
        .ok { e with
              result := .kMismatch,
              description := hashMismatchDescription (hashFn c1) (hashFn c2) }) := by
  have hstep : compareEntryStep path1RootLen path2Root hashFn fs options e =
      .ok (compareRegularFiles hashFn fs options i1 i2 e) := by
    rw [compareEntryStep_hasInfo2 _ _ _ _ _ _ hres hhas,
      comparePaths_resolved _ _ _ _ _ _ hres hhas hi1 hi2,
      if_neg (by simp [htype]), if_neg (by simp [hperm]),
      if_neg (by simp [hreg])]
  constructor
  · intro hck
    rw [hstep]
    unfold compareRegularFiles
    rw [if_neg (by simp [hsize]), if_neg (by simp [hck])]
  · intro hck hdig
    rw [hstep]
    unfold compareRegularFiles
    rw [if_neg (by simp [hsize]), if_pos (by simp [hck])]
    unfold getFileHash
    rw [hc1, hc2]
    dsimp only [Option.getD]
    have hcmp : cmpByteSlices (hashFn c1) (hashFn c2) = false := by
      rcases h : cmpByteSlices (hashFn c1) (hashFn c2) with _ | _
      · rfl
      · exact absurd ((cmpByteSlices_eq_true_iff _ _).mp h) hdig
    rw [hcmp]
    rfl

/-- Witness for C4: two 3-byte files with different bytes, the digest
abstracted as the identity function; hashing disabled yields
`kPerfectMatch`, hashing enabled yields `kMismatch` with both digests
in the detail. -/
theorem equal_size_differing_content_witness :
    (compareEntryStep 3 "t2".toList (fun bs => bs)
        ⟨fun _ => .notExist, fun _ => none,
         fun p => if p = "f1".toList then some [1, 2, 3] else some [9, 9, 9]⟩
        ⟨false, []⟩
        { blankEntry with path1 := "f1".toList, path2 := "f2".toList,
                          info1 := some ⟨.regular, 420, 3⟩,
                          info2 := some ⟨.regular, 420, 3⟩,
                          hasInfo2 := true } =
      .ok { blankEntry with path1 := "f1".toList, path2 := "f2".toList,
                            info1 := some ⟨.regular, 420, 3⟩,
                            info2 := some ⟨.regular, 420, 3⟩,
                            hasInfo2 := true, result := .kPerfectMatch }) ∧
    (compareEntryStep 3 "t2".toList (fun bs => bs)
        ⟨fun _ => .notExist, fun _ => none,
         fun p => if p = "f1".toList then some [1, 2, 3] else some [9, 9, 9]⟩
        ⟨true, []⟩
        { blankEntry with path1 := "f1".toList, path2 := "f2".toList,
                          info1 := some ⟨.regular, 420, 3⟩,
                          info2 := some ⟨.regular, 420, 3⟩,
                          hasInfo2 := true } =
      .ok { blankEntry with path1 := "f1".toList, path2 := "f2".toList,
                            info1 := some ⟨.regular, 420, 3⟩,
                            info2 := some ⟨.regular, 420, 3⟩,
                            hasInfo2 := true, result := .kMismatch,
                            description := hashMismatchDescription [1, 2, 3] [9, 9, 9] }) := by
  constructor
  · exact (equal_size_differing_content 3 "t2".toList (fun bs => bs)
      ⟨fun _ => .notExist, fun _ => none,
       fun p => if p = "f1".toList then some [1, 2, 3] else some [9, 9, 9]⟩
      ⟨false, []⟩
      { blankEntry with path1 := "f1".toList, path2 := "f2".toList,
                        info1 := some ⟨.regular, 420, 3⟩,
                        info2 := some ⟨.regular, 420, 3⟩,
                        hasInfo2 := true }
      ⟨.regular, 420, 3⟩ ⟨.regular, 420, 3⟩ [1, 2, 3] [9, 9, 9]
      (by decide) (by decide) rfl rfl (by decide) (by decide) (by decide)
      (by decide) (by decide) (by decide) (by decide)).1 rfl
  · exact (equal_size_differing_content 3 "t2".toList (fun bs => bs)
      ⟨fun _ => .notExist, fun _ => none,
       fun p => if p = "f1".toList then some [1, 2, 3] else some [9, 9, 9]⟩
      ⟨true, []⟩
      { blankEntry with path1 := "f1".toList, path2 := "f2".toList,
                        info1 := some ⟨.regular, 420, 3⟩,
                        info2 := some ⟨.regular, 420, 3⟩,
                        hasInfo2 := true }
      ⟨.regular, 420, 3⟩ ⟨.regular, 420, 3⟩ [1, 2, 3] [9, 9, 9]
      (by decide) (by decide) rfl rfl (by decide) (by decide) (by decide)
      (by decide) (by decide) (by decide) (by decide)).2 rfl (by decide)

lemma foldl_setAdd_eq_filter (ignore : List GoStr) (l : List GoStr) :
    ∀ acc : List GoStr, l.Nodup → (∀ x ∈ l, x ∉ acc) →
      l.foldl (fun set n => if ignore.contains n then set else setAdd set n) acc =
        acc ++ l.filter (fun n => !ignore.contains n) := by
  induction l with
  | nil => intro acc _ _; simp
  | cons n rest ih =>
    intro acc hnd hacc
    obtain ⟨hn_rest, hnd2⟩ := List.nodup_cons.mp hnd
    rw [List.foldl_cons]
    cases hn : ignore.contains n with
    | true =>
      have hmemn : n ∈ ignore := by simpa using hn
      rw [if_pos rfl, ih acc hnd2 (fun x hx => hacc x (List.mem_cons_of_mem n hx))]
      simp [List.filter_cons, hmemn]
    | false =>
      have hmemn : n ∉ ignore := by simpa using hn
      rw [if_neg (by simp)]
      have hsa : setAdd acc n = acc ++ [n] := by
        unfold setAdd
        rw [if_neg (by simpa using hacc n (List.mem_cons_self n rest))]
      rw [hsa, ih (acc ++ [n]) hnd2 ?side]
      case side =>
        intro x hx
        simp only [List.mem_append, List.mem_singleton]
        rintro (hmem | rfl)
        · exact hacc x (List.mem_cons_of_mem n hx) hmem
        · exact hn_rest hx
      simp [List.filter_cons, hmemn]

lemma readDirectoryIntoSet_eq_filter (fs : FS) (dir : GoStr)
    (options : DifftreeOptions) (l : List GoStr)
    (hrd : fs.readDir dir = some l) (hnd : l.Nodup) :
    readDirectoryIntoSet fs dir options =
      some (l.filter fun n => !options.IgnoreFiles.contains n) := by
  unfold readDirectoryIntoSet
  rw [hrd]
  dsimp only
  rw [foldl_setAdd_eq_filter _ _ [] hnd (by simp)]
  simp

lemma setEqual_iff (s1 s2 : List GoStr) :
    setEqual s1 s2 = true ↔ (∀ x, x ∈ s1 ↔ x ∈ s2) := by
  unfold setEqual
  simp only [Bool.and_eq_true, List.all_eq_true]
  constructor
  · rintro ⟨h1, h2⟩ x
    constructor
    · intro hx; simpa using h1 x hx
    · intro hx; simpa using h2 x hx
  · intro h
    constructor
    · intro x hx; simpa using (h x).mp hx
    · intro x hx; simpa using (h x).mpr hx

lemma createEnumeratedListAux_eq_enumFrom (items : List GoStr) :
    ∀ i, createEnumeratedListAux i items =
      ((List.enumFrom i items).map fun p => enumLine p.1 p.2).flatten := by
  induction items with
  | nil => intro i; simp [createEnumeratedListAux]
  | cons a t ih => intro i; simp [createEnumeratedListAux, List.enumFrom, ih]

lemma createEnumeratedList_eq_enum (items : List GoStr) :
    createEnumeratedList items =
      (items.enum.map fun p => enumLine p.1 p.2).flatten :=
  createEnumeratedListAux_eq_enumFrom items 0

/-- Written from the spec's words: a side having unique entries
contributes a header line and one `    <n>. <name>` line per unique
entry, `n` counted from 1 in listing order (`enumLine k name` renders
index `k + 1` for the 0-based position `k`); a side with no unique
entries contributes nothing. -/
def specUniqueEntriesDetail (header : GoStr) (unique : List GoStr) : GoStr :=
  if unique = [] then []
  else header ++ ((unique.enum.map fun p => enumLine p.1 p.2).flatten) ++ ['\n']

lemma dirDetail_eq (header : GoStr) (u : List GoStr) :
    (if u.length > 0 then header ++ createEnumeratedList u ++ ['\n'] else []) =
      specUniqueEntriesDetail header u := by
  unfold specUniqueEntriesDetail
  rcases u with _ | ⟨a, t⟩
  · simp
  · simp [createEnumeratedList_eq_enum]

/-- C5: for corresponding directories (same type and permissions, both
listable), the worker compares the ignore-filtered sets of immediate
child basenames: equal sets (as membership) give `kDirSameEntries`;
unequal sets give `kDirDifferentEntries` with a detail that, for each
side having unique entries, lists those entries enumerated with 1-based
indices (via `specUniqueEntriesDetail`).  Directory listings are
duplicate-free (`Nodup`), as `ioutil.ReadDir` guarantees. -/
theorem directory_name_set_comparison (path1RootLen : Nat) (path2Root : GoStr)
    (hashFn : List Nat → List Nat) (fs : FS) (options : DifftreeOptions)
    (e : treeEntry) (i1 i2 : FileInfo) (l1 l2 f1 f2 : List GoStr)
    (hres : ¬ e.result = resultType.kIgnored) (hhas : e.hasInfo2 = true)
    (hi1 : e.info1 = some i1) (hi2 : e.info2 = some i2)
    (htype : i1.ftype = i2.ftype) (hdir : i1.ftype = FileType.dir)
    (hperm : i1.perm = i2.perm)
    (hl1 : fs.readDir e.path1 = some l1) (hl2 : fs.readDir e.path2 = some l2)
    (hnd1 : l1.Nodup) (hnd2 : l2.Nodup)
    (hf1 : f1 = l1.filter fun n => !options.IgnoreFiles.contains n)
    (hf2 : f2 = l2.filter fun n => !options.IgnoreFiles.contains n) :
    ((∀ x, x ∈ f1 ↔ x ∈ f2) →
      compareEntryStep path1RootLen path2Root hashFn fs options e =
        .ok { e with result := .kDirSameEntries }) ∧
    (¬ (∀ x, x ∈ f1 ↔ x ∈ f2) →
      compareEntryStep path1RootLen path2Root hashFn fs options e =
        .ok { e with
              result := .kDirDifferentEntries,
              description :=
                specUniqueEntriesDetail
                  "dir1 has these extra entries that are missing from dir2:\n".toList
                  (f1.filter fun x => !f2.contains x) ++
                specUniqueEntriesDetail
                  "dir2 has these extra entries that are missing from dir1:\n".toList
                  (f2.filter fun x => !f1.contains x) }) := by
  have hstep : compareEntryStep path1RootLen path2Root hashFn fs options e =
      .ok (compareDirectories fs options e) := by
    rw [compareEntryStep_hasInfo2 _ _ _ _ _ _ hres hhas,
      comparePaths_resolved _ _ _ _ _ _ hres hhas hi1 hi2,
      if_neg (by simp [htype]), if_neg (by simp [hperm]), if_pos hdir]
  have hrd1 : readDirectoryIntoSet fs e.path1 options = some f1 := by
    rw [readDirectoryIntoSet_eq_filter fs e.path1 options l1 hl1 hnd1, hf1]
  have hrd2 : readDirectoryIntoSet fs e.path2 options = some f2 := by
    rw [readDirectoryIntoSet_eq_filter fs e.path2 options l2 hl2 hnd2, hf2]
  constructor
  · intro hsame
    rw [hstep]
    unfold compareDirectories
    rw [hrd1]
    dsimp only
    rw [hrd2]
    dsimp only
    rw [if_pos ((setEqual_iff f1 f2).mpr hsame)]
  · intro hdiff
    have hne : setEqual f1 f2 = false := by
      cases h' : setEqual f1 f2 with
      | false => rfl
      | true => exact absurd ((setEqual_iff f1 f2).mp h') hdiff
    rw [hstep]
    unfold compareDirectories
    rw [hrd1]
    dsimp only
    rw [hrd2]
    dsimp only
    rw [if_neg (by simp [hne])]
    rw [show setDifference f1 f2 = f1.filter (fun x => !f2.contains x) from rfl,
      show setDifference f2 f1 = f2.filter (fun x => !f1.contains x) from rfl,
      dirDetail_eq, dirDetail_eq]

/-- Witness for C5: with the ignore set `{ign}`, tree-1 listing
`{a, b, ign}` against tree-2 listing `{b}` (equal after filtering is
false here) — first conjunct on `{b, ign}` vs `{b}` (equal filtered
sets, `kDirSameEntries`), second on `{a, b, ign}` vs `{b, c}`
(`kDirDifferentEntries`, `a` unique to dir1 and `c` unique to dir2). -/
theorem directory_name_set_comparison_witness :
    (compareEntryStep 3 "t2".toList (fun _ => [])
        ⟨fun _ => .notExist,
         fun p => if p = "a/d".toList then some ["b".toList, "ign".toList]
                  else some ["b".toList],
         fun _ => none⟩
        ⟨false, ["ign".toList]⟩
        { blankEntry with path1 := "a/d".toList, path2 := "t2/d".toList,
                          info1 := some ⟨.dir, 448, 0⟩,
                          info2 := some ⟨.dir, 448, 0⟩,
                          hasInfo2 := true } =
      .ok { blankEntry with path1 := "a/d".toList, path2 := "t2/d".toList,
                            info1 := some ⟨.dir, 448, 0⟩,
                            info2 := some ⟨.dir, 448, 0⟩,
                            hasInfo2 := true, result := .kDirSameEntries }) ∧
    (compareEntryStep 3 "t2".toList (fun _ => [])
        ⟨fun _ => .notExist,
         fun p => if p = "a/d".toList
                  then some ["a".toList, "b".toList, "ign".toList]
                  else some ["b".toList, "c".toList],
         fun _ => none⟩
        ⟨false, ["ign".toList]⟩
        { blankEntry with path1 := "a/d".toList, path2 := "t2/d".toList,
                          info1 := some ⟨.dir, 448, 0⟩,
                          info2 := some ⟨.dir, 448, 0⟩,
                          hasInfo2 := true } =
      .ok { blankEntry with path1 := "a/d".toList, path2 := "t2/d".toList,
                            info1 := some ⟨.dir, 448, 0⟩,
                            info2 := some ⟨.dir, 448, 0⟩,
                            hasInfo2 := true,
                            result := .kDirDifferentEntries,
                            description :=
                              specUniqueEntriesDetail
                                "dir1 has these extra entries that are missing from dir2:\n".toList
                                ["a".toList] ++
                              specUniqueEntriesDetail
                                "dir2 has these extra entries that are missing from dir1:\n".toList
                                ["c".toList] }) := by
  constructor
  · exact (directory_name_set_comparison 3 "t2".toList (fun _ => [])
      ⟨fun _ => .notExist,
       fun p => if p = "a/d".toList then some ["b".toList, "ign".toList]
                else some ["b".toList],
       fun _ => none⟩
      ⟨false, ["ign".toList]⟩
      { blankEntry with path1 := "a/d".toList, path2 := "t2/d".toList,
                        info1 := some ⟨.dir, 448, 0⟩,
                        info2 := some ⟨.dir, 448, 0⟩,
                        hasInfo2 := true }
      ⟨.dir, 448, 0⟩ ⟨.dir, 448, 0⟩
      ["b".toList, "ign".toList] ["b".toList] ["b".toList] ["b".toList]
      (by decide) (by decide) rfl rfl (by decide) (by decide) (by decide)
      (by decide) (by decide) (by decide) (by decide) (by decide)
      (by decide)).1 (fun _ => Iff.rfl)
  · exact (directory_name_set_comparison 3 "t2".toList (fun _ => [])
      ⟨fun _ => .notExist,
       fun p => if p = "a/d".toList
                then some ["a".toList, "b".toList, "ign".toList]
                else some ["b".toList, "c".toList],
       fun _ => none⟩
      ⟨false, ["ign".toList]⟩
      { blankEntry with path1 := "a/d".toList, path2 := "t2/d".toList,
                        info1 := some ⟨.dir, 448, 0⟩,
                        info2 := some ⟨.dir, 448, 0⟩,
                        hasInfo2 := true }
      ⟨.dir, 448, 0⟩ ⟨.dir, 448, 0⟩
      ["a".toList, "b".toList, "ign".toList] ["b".toList, "c".toList]
      ["a".toList, "b".toList] ["b".toList, "c".toList]
      (by decide) (by decide) rfl rfl (by decide) (by decide) (by decide)
      (by decide) (by decide) (by decide) (by decide) (by decide)
      (by decide)).2
      (fun h => absurd ((h "a".toList).mp (by decide)) (by decide))

/-- The tree-2 path the walker computes for a visited tree-1 path
(the value of `entry.path2` after `computePath2`). -/
def walkerPath2 (path1RootLen : Nat) (path2Root : GoStr) (path : GoStr) : GoStr :=
  if path.length > path1RootLen then
    filepathJoin path2Root (path.drop path1RootLen)
  else path2Root

lemma computePath2_path2 (e : treeEntry) (n : Nat) (p2 : GoStr) :
    (computePath2 e n p2).path2 = walkerPath2 n p2 e.path1 := by
  unfold computePath2 walkerPath2
  split <;> simp_all

lemma walkFuncOk_path1 (n : Nat) (p2 : GoStr) (fs : FS)
    (opts : DifftreeOptions) (ord : Nat) (path : GoStr) (info : FileInfo) :
    (walkFuncOk n p2 fs opts ord path info).1.path1 = path := by
  unfold walkFuncOk
  dsimp only
  split_ifs <;> try rfl
  split
  · split_ifs <;> simp [computePath2_path1]
  · simp [computePath2_path1]

lemma walkTree_visits_self (n : Nat) (p2 : GoStr) (fs : FS)
    (opts : DifftreeOptions) (node : FSNode) (order : Nat) (path : GoStr) :
    path ∈ ((walkTree n p2 fs opts order path node).1).map treeEntry.path1 := by
  cases node with
  | file name meta => simp [walkTree, walkFuncOk_path1]
  | dir name meta children =>
    simp only [walkTree]
    rcases h : (walkFuncOk n p2 fs opts order path meta).2 with _ | _ <;>
      simp [h, walkFuncOk_path1]

lemma walkForest_visits (n : Nat) (p2 : GoStr) (fs : FS)
    (opts : DifftreeOptions) (parent : GoStr) (children : List FSNode) :
    ∀ (order : Nat), ∀ c ∈ children,
      filepathJoin parent c.name ∈
        ((walkForest n p2 fs opts order parent children).1).map treeEntry.path1 := by
  induction children with
  | nil => intro order c hc; cases hc
  | cons a rest ih =>
    intro order c hc
    rcases List.mem_cons.mp hc with rfl | hc2
    · simp only [walkForest, List.map_append]
      exact List.mem_append_left _ (walkTree_visits_self n p2 fs opts c order _)
    · simp only [walkForest, List.map_append]
      exact List.mem_append_right _ (ih _ c hc2)

/-- C6: for a non-ignored directory visited in tree 1 at `path`, the
walker's pruning policy: if the tree-2 counterpart `Lstat`s
successfully but is not a directory, descent is pruned — the walk of
that subtree visits only `path` itself; if the counterpart does not
exist (`Lstat` fails with not-exist), the walk still descends and
visits every child of the directory. -/
theorem walker_prune_and_descend_policy (path1RootLen : Nat)
    (path2Root : GoStr) (fs : FS) (options : DifftreeOptions) (order : Nat)
    (path : GoStr) (name : GoStr) (meta : FileInfo) (children : List FSNode)
    (hnotign : options.IgnoreFiles.contains (filepathBase path) = false)
    (hdir : meta.ftype = FileType.dir) :
    (∀ info2 : FileInfo,
      fs.lstat (walkerPath2 path1RootLen path2Root path) = .ok info2 →
      info2.ftype ≠ FileType.dir →
      ((walkTree path1RootLen path2Root fs options order path
          (.dir name meta children)).1).map treeEntry.path1 = [path]) ∧
    (fs.lstat (walkerPath2 path1RootLen path2Root path) = .notExist →
      ∀ c ∈ children,
        filepathJoin path c.name ∈
          ((walkTree path1RootLen path2Root fs options order path
              (.dir name meta children)).1).map treeEntry.path1) := by
  have hpath2 :
      (computePath2 { blankEntry with path1 := path,
                                      order := order,
                                      info1 := some meta }
          path1RootLen path2Root).path2 =
        walkerPath2 path1RootLen path2Root path := by
    rw [computePath2_path2]
  constructor
  · intro info2 hstat hnotdir
    simp only [walkTree, walkFuncOk]
    rw [if_neg (by simpa using hnotign), if_pos hdir, hpath2, hstat]
    simp [hnotdir, computePath2_path1]
  · intro hstat c hc
    simp only [walkTree, walkFuncOk]
    rw [if_neg (by simpa using hnotign), if_pos hdir, hpath2, hstat]
    simp only [List.map_cons]
    exact List.mem_cons_of_mem _ (walkForest_visits _ _ _ _ _ _ _ c hc)

/-- Witness for C6: under tree-1 root `a` (root length 2), directory
`a/b` whose tree-2 counterpart `t2/b` is a regular file prunes to the
single visit `[a/b]`; when the counterpart is missing, the child
`a/b/c` is visited. -/
theorem walker_prune_and_descend_policy_witness :
    (((walkTree 2 "t2".toList
        ⟨fun _ => .ok ⟨.regular, 420, 0⟩, fun _ => none, fun _ => none⟩
        ⟨false, []⟩ 0 "a/b".toList
        (.dir "b".toList ⟨.dir, 448, 0⟩
          [FSNode.file "c".toList ⟨.regular, 420, 1⟩])).1).map
      treeEntry.path1 = ["a/b".toList]) ∧
    "a/b/c".toList ∈
      ((walkTree 2 "t2".toList
          ⟨fun _ => .notExist, fun _ => none, fun _ => none⟩
          ⟨false, []⟩ 0 "a/b".toList
          (.dir "b".toList ⟨.dir, 448, 0⟩
            [FSNode.file "c".toList ⟨.regular, 420, 1⟩])).1).map
        treeEntry.path1 := by
  constructor
  · exact (walker_prune_and_descend_policy 2 "t2".toList
      ⟨fun _ => .ok ⟨.regular, 420, 0⟩, fun _ => none, fun _ => none⟩
      ⟨false, []⟩ 0 "a/b".toList "b".toList ⟨.dir, 448, 0⟩
      [FSNode.file "c".toList ⟨.regular, 420, 1⟩]
      (by decide) (by decide)).1 ⟨.regular, 420, 0⟩ rfl (by decide)
  · have h := (walker_prune_and_descend_policy 2 "t2".toList
      ⟨fun _ => .notExist, fun _ => none, fun _ => none⟩
      ⟨false, []⟩ 0 "a/b".toList "b".toList ⟨.dir, 448, 0⟩
      [FSNode.file "c".toList ⟨.regular, 420, 1⟩]
      (by decide) (by decide)).2 rfl
      (FSNode.file "c".toList ⟨.regular, 420, 1⟩) (by simp)
    simpa using h

end Difftree
